import Mathlib

/-!
Verification development for the `nolock` crate: an atomic slot holding a
reference-counted pointer (`Arc`) together with a small tag packed into the
unused low bits of the pointer word.

Shallow embedding conventions:
- The target platform is 64-bit: `usize` words are modelled as `Nat` values
  below `2 ^ 64`, and `align_of::<Arc<T>>() = 8`.
- Pointee alignment (`mem::align_of::<T>()`) is a `Nat` parameter `align`.
- Reference counting is modelled by a map `Word → Nat` from allocation
  addresses (untagged pointer words) to strong counts.  `Arc::into_raw` and
  `Arc::from_raw` do not change counts; `Arc::clone` increments the count of
  its allocation; dropping an `Arc` decrements it.
- A `TaggedArc<T>` value is represented by its machine word.  An atomic slot
  (`AtomicArc<T>`) is a `SlotState`: the slot's current word plus the strong
  counts of all allocations.
- Operations that may panic (an `expect` on `TaggedArc::from_usize`) return
  `Option`, with `none` meaning a panic.
- The spurious-failure freedom of a hardware `compare_exchange_weak` is an
  explicit `Bool` (or `List Bool`) oracle parameter.
-/

/-- A machine word (`usize` on a 64-bit platform). -/
abbrev Word := Nat

/-- Rust's bitwise complement `!x` on a 64-bit `usize`: XOR with all ones. -/
def rustNot (x : Word) : Word := (2 ^ 64 - 1) ^^^ x

/-- Fuel-bounded helper computing the number of trailing zero bits. -/
def trailingZerosAux : Nat → Nat → Nat
  | 0, _ => 0
  | fuel + 1, n => if n % 2 = 1 then 0 else trailingZerosAux fuel (n / 2) + 1

/-- Rust's `usize::trailing_zeros` on a 64-bit platform (64 halvings suffice;
`trailing_zeros 0 = 64` as in Rust). -/
def trailing_zeros (n : Nat) : Nat := trailingZerosAux 64 n

/-- Strong reference counts, indexed by allocation address. -/
abbrev Counts := Word → Nat

namespace Arc

/-- Model of `Arc::clone`: atomically increments the strong count of the
allocation at address `a`. -/
def clone (c : Counts) (a : Word) : Counts :=
  fun x => if x = a then c x + 1 else c x

/-- Model of dropping an `Arc` whose allocation is at address `a`: decrements
its strong count (the allocation is deallocated when the count reaches 0). -/
def drop (c : Counts) (a : Word) : Counts :=
  fun x => if x = a then c x - 1 else c x

end Arc

/-- State of one atomic slot: the word it currently stores plus the strong
counts of every allocation. -/
structure SlotState where
  slot : Word
  counts : Counts

namespace SyncTag

/-- Model of `low_bits::<T>()` in `src/sync/tag.rs`:
`(1 << mem::align_of::<T>().trailing_zeros()) - 1`. -/
def low_bits (align : Nat) : Word := (1 <<< trailing_zeros align) - 1

/-- Model of `compose_tag::<T>(data, tag)` in `src/sync/tag.rs`:
`(data & !mask) | (tag & mask)`. -/
def compose_tag (align : Nat) (data tg : Word) : Word :=
  (data &&& rustNot (low_bits align)) ||| (tg &&& low_bits align)

/-- Model of `decompose_tag::<T>(data)` in `src/sync/tag.rs`:
`(data & !mask, data & mask)`. -/
def decompose_tag (align : Nat) (data : Word) : Word × Word :=
  (data &&& rustNot (low_bits align), data &&& low_bits align)

/-- Alignment of `Arc<T>` (a pointer-sized struct) on a 64-bit platform; the
decomposition methods of `sync::TaggedArc` instantiate the codec at `Arc<T>`,
not at `T`. -/
def alignOfArc : Nat := 8

/-- Model of `TaggedArc::from_usize` in `src/sync/tag.rs`: wraps the word in
`NonZeroUsize::new`, so the result is `None` exactly for the zero word. -/
def TaggedArc.from_usize (w : Word) : Option Word :=
  if w = 0 then none else some w

/-- Model of `Clone for TaggedArc<T>` in `src/sync/tag.rs`: decomposes the
word with the mask of `Arc<T>`, reconstructs an `Arc` from the pointer bits
(`Arc::from_raw`, no count change), clones it (count + 1), rebuilds a handle
from the clone (`TaggedArc::new`, i.e. `Arc::into_raw`, same address) and
re-tags it with `with_tag` (`compose_tag::<T>`).  The `Arc` reconstructed from
the borrow falls out of scope at the end of the function and is dropped
(count - 1).  Returns the clone's word and the resulting counts. -/
def TaggedArc.clone (align : Nat) (c : Counts) (w : Word) : Word × Counts :=
  let d := decompose_tag alignOfArc w
  let c1 := Arc.clone c d.1
  let res := compose_tag align d.1 d.2
  let c2 := Arc.drop c1 d.1
  (res, c2)

/-- Model of dropping a `sync::TaggedArc<T>` value: the `Drop` impl in
`src/sync/tag.rs` (lines 178-185) is commented out and the struct's only
field is a `NonNull<T>`, so Rust's drop glue does nothing; the word is
discarded and no strong count changes. -/
def TaggedArc.drop (c : Counts) (_w : Word) : Counts := c

end SyncTag

namespace Pointer

/-- Model of `low_bits::<T>()` in `src/pointer.rs`:
`(1 << mem::align_of::<T>()) - 1` (note: shifts by the alignment itself, not
by its number of trailing zeros). -/
def low_bits (align : Nat) : Word := (1 <<< align) - 1

/-- Model of `compose_tag::<T>` in `src/pointer.rs`. -/
def compose_tag (align : Nat) (data tg : Word) : Word :=
  (data &&& rustNot (low_bits align)) ||| (tg &&& low_bits align)

/-- Model of `decompose_tag::<T>` in `src/pointer.rs`. -/
def decompose_tag (align : Nat) (data : Word) : Word × Word :=
  (data &&& rustNot (low_bits align), data &&& low_bits align)

/-- Model of `Clone for TaggedArc<T>` in `src/pointer.rs`: `decompose` splits
the word with `decompose_tag::<T>` and conjures an owned `Arc` from the
pointer bits; `Arc::clone` increments the count; `TaggedArc::compose`
recomposes the cloned pointer with the tag; the conjured `Arc` is dropped at
scope end. -/
def TaggedArc.clone (align : Nat) (c : Counts) (w : Word) : Word × Counts :=
  let d := decompose_tag align w
  let c1 := Arc.clone c d.1
  let res := compose_tag align d.1 d.2
  let c2 := Arc.drop c1 d.1
  (res, c2)

/-- Model of `AtomicArc::load` in `src/pointer.rs` (tag feature): atomically
reads the word, rebuilds a `TaggedArc` view with `from_usize` (unchecked, no
count change) and returns `TaggedArc::clone` of it; the slot word is not
written. -/
def AtomicArc.load (align : Nat) (s : SlotState) : Word × SlotState :=
  let r := TaggedArc.clone align s.counts s.slot
  (r.1, ⟨s.slot, r.2⟩)

/-- Model of `AtomicArc::store` in `src/pointer.rs` (identical logic in
`src/atomic.rs` and `src/sync/pointer.rs`): converts the new handle to its
word (`into_usize`, consuming it without touching counts) and stores that
word; the previously stored word is overwritten without being reconstructed
or dropped, so no strong count changes. -/
def AtomicArc.store (s : SlotState) (new : Word) : SlotState :=
  ⟨new, s.counts⟩

/-- Model of `AtomicArc::compare_exchange` in `src/pointer.rs`: the hardware
CAS compares the slot word bitwise with `current`'s word; on success the slot
word becomes `new`'s word and the previous word is returned rebuilt as a
handle (`Ok`); on failure the slot is untouched and its actual word is
returned rebuilt as a handle (`Err`).  No strong count changes. -/
def AtomicArc.compare_exchange (s : SlotState) (current new : Word) :
    Except Word Word × SlotState :=
  if s.slot = current then (Except.ok s.slot, ⟨new, s.counts⟩)
  else (Except.error s.slot, s)

/-- Model of `AtomicArc::compare_exchange_weak` in `src/pointer.rs`; the
`spurious` flag models the hardware's permission to fail spuriously even when
the comparison succeeds. -/
def AtomicArc.compare_exchange_weak (spurious : Bool) (s : SlotState)
    (current new : Word) : Except Word Word × SlotState :=
  if spurious = false ∧ s.slot = current then (Except.ok s.slot, ⟨new, s.counts⟩)
  else (Except.error s.slot, s)

/-- The retry loop of `AtomicArc::fetch_update` in `src/pointer.rs` (the same
loop is the provided method of the `Atomic` trait in `src/sync/atomic.rs`):
while `f prev` yields a candidate, attempt `compare_exchange_weak`; on success
return its `Ok`; on failure retry with the actual value the CAS reported; when
`f` declines, return `Err prev`.  `fuel` bounds the number of iterations in
the model (`none` = the loop has not finished within `fuel` steps) and
`spurs` is the oracle of spurious CAS failures. -/
def AtomicArc.fetchUpdateLoop (align : Nat) (f : Word → Option Word) :
    Nat → List Bool → SlotState → Word → Option (Except Word Word × SlotState)
  | 0, _, _, _ => none
  | fuel + 1, spurs, s, prev =>
    match f prev with
    | none => some (Except.error prev, s)
    | some next =>
      match AtomicArc.compare_exchange_weak (spurs.headD false) s prev next with
      | (Except.ok old, s1) => some (Except.ok old, s1)
      | (Except.error actual, s1) =>
        AtomicArc.fetchUpdateLoop align f fuel spurs.tail s1 actual

/-- Model of `AtomicArc::fetch_update` in `src/pointer.rs`: loads the current
handle, then runs the compare-exchange retry loop starting from it. -/
def AtomicArc.fetch_update (align : Nat) (f : Word → Option Word)
    (fuel : Nat) (spurs : List Bool) (s : SlotState) :
    Option (Except Word Word × SlotState) :=
  let r := AtomicArc.load align s
  AtomicArc.fetchUpdateLoop align f fuel spurs r.2 r.1

end Pointer

namespace AtomicMod

/-- Model of `low_bits::<T>()` in `src/atomic.rs`: same formula as
`src/pointer.rs`, `(1 << mem::align_of::<T>()) - 1`. -/
def low_bits (align : Nat) : Word := (1 <<< align) - 1

/-- Model of `AtomicArc::load` in `src/atomic.rs`: reads the word and wraps
it with the unchecked `TaggedArc::from_usize` without cloning, so neither the
slot nor any strong count changes. -/
def AtomicArc.load (s : SlotState) : Word × SlotState := (s.slot, s)

/-- Model of `AtomicArc::store` in `src/atomic.rs`: same as
`Pointer.AtomicArc.store` (overwrite, old word leaked). -/
def AtomicArc.store (s : SlotState) (new : Word) : SlotState :=
  ⟨new, s.counts⟩

end AtomicMod

namespace SyncPointer

/-- Model of `AtomicArc::from_usize` in `src/sync/pointer.rs`: guards the
word with `NonZeroUsize::new`, so construction fails exactly on zero. -/
def AtomicArc.from_usize (w : Word) : Option Word :=
  if w = 0 then none else some w

/-- Model of `Atomic::load` for `sync::AtomicArc` in `src/sync/pointer.rs`:
atomically reads the word, rebuilds a handle with
`TaggedArc::from_usize(..).expect(..)` (panics on a zero word, modelled as
`none`) and returns `TaggedArc::clone` of it. -/
def AtomicArc.load (align : Nat) (s : SlotState) : Option (Word × SlotState) :=
  match SyncTag.TaggedArc.from_usize s.slot with
  | none => none
  | some w =>
    let r := SyncTag.TaggedArc.clone align s.counts w
    some (r.1, ⟨s.slot, r.2⟩)

/-- Model of `Atomic::store` for `sync::AtomicArc` in `src/sync/pointer.rs`:
overwrites the word with the new handle's word; the old word is leaked. -/
def AtomicArc.store (s : SlotState) (new : Word) : SlotState :=
  ⟨new, s.counts⟩

/-- Model of `Atomic::compare_exchange` for `sync::AtomicArc` in
`src/sync/pointer.rs`: hardware CAS on the words, then the returned word
(previous word on success, actual word on failure) is rebuilt with
`TaggedArc::from_usize(..).expect(..)`; `none` models that panic. -/
def AtomicArc.compare_exchange (s : SlotState) (current new : Word) :
    Option (Except Word Word × SlotState) :=
  if s.slot = current then
    match SyncTag.TaggedArc.from_usize s.slot with
    | none => none
    | some w => some (Except.ok w, ⟨new, s.counts⟩)
  else
    match SyncTag.TaggedArc.from_usize s.slot with
    | none => none
    | some w => some (Except.error w, s)

/-- Model of `Atomic::compare_exchange_weak` for `sync::AtomicArc` in
`src/sync/pointer.rs`, with an explicit spurious-failure flag. -/
def AtomicArc.compare_exchange_weak (spurious : Bool) (s : SlotState)
    (current new : Word) : Option (Except Word Word × SlotState) :=
  if spurious = false ∧ s.slot = current then
    match SyncTag.TaggedArc.from_usize s.slot with
    | none => none
    | some w => some (Except.ok w, ⟨new, s.counts⟩)
  else
    match SyncTag.TaggedArc.from_usize s.slot with
    | none => none
    | some w => some (Except.error w, s)

end SyncPointer

namespace SyncOption

/-- Model of `Atomic::load` for `Option<TaggedArc<T>>` in
`src/sync/option.rs`: reads the word; `TaggedArc::from_usize` yields `None`
for the zero (empty) word, in which case `None` is returned with no
reference-count bookkeeping; otherwise the rebuilt handle is cloned and the
clone returned. -/
def load (align : Nat) (s : SlotState) : Option Word × Counts :=
  match SyncTag.TaggedArc.from_usize s.slot with
  | none => (none, s.counts)
  | some w =>
    let r := SyncTag.TaggedArc.clone align s.counts w
    (some r.1, r.2)

end SyncOption

/-- Discriminator for the `Result`-shaped return values of the CAS family. -/
def exceptIsOk (r : Except Word Word) : Bool :=
  match r with
  | Except.ok _ => true
  | Except.error _ => false

/-! ## Helper lemmas -/

theorem rustNot_testBit (m : Word) (i : Nat) :
    (rustNot m).testBit i = (Bool.xor (decide (i < 64)) (m.testBit i)) := by
  have h : (2 ^ 64 - 1 : Nat).testBit i = decide (i < 64) :=
    Nat.testBit_two_pow_sub_one 64 i
  simp only [rustNot, Nat.testBit_xor, h]

theorem testBit_high_false {w : Word} {i : Nat} (hw : w < 2 ^ 64) (hi : 64 ≤ i) :
    w.testBit i = false :=
  Nat.testBit_lt_two_pow
    (lt_of_lt_of_le hw (Nat.pow_le_pow_right (by norm_num) hi))

theorem and_rustNot_or_and_self (w m : Word) (hw : w < 2 ^ 64) :
    ((w &&& rustNot m) &&& rustNot m) ||| ((w &&& m) &&& m) = w := by
  apply Nat.eq_of_testBit_eq
  intro i
  simp only [Nat.testBit_and, Nat.testBit_or, rustNot_testBit]
  by_cases hi64 : i < 64
  · cases hm : m.testBit i <;> simp [hi64, hm]
  · simp [hi64, testBit_high_false hw (le_of_not_lt hi64)]

theorem trailingZerosAux_two_pow :
    ∀ (k fuel : Nat), k ≤ fuel → trailingZerosAux fuel (2 ^ k) = k := by
  intro k
  induction k with
  | zero =>
    intro fuel _
    cases fuel with
    | zero => rfl
    | succ n => simp [trailingZerosAux]
  | succ k ih =>
    intro fuel hf
    cases fuel with
    | zero => omega
    | succ n =>
      have h2 : 2 ^ (k + 1) % 2 = 0 := by
        simp [Nat.pow_succ, Nat.mul_mod_left]
      have h3 : 2 ^ (k + 1) / 2 = 2 ^ k := by
        simp [Nat.pow_succ]
      simp [trailingZerosAux, h2, h3, ih n (by omega)]

theorem low_bits_two_pow (k : Nat) (hk : k ≤ 64) :
    SyncTag.low_bits (2 ^ k) = 2 ^ k - 1 := by
  unfold SyncTag.low_bits trailing_zeros
  rw [trailingZerosAux_two_pow k 64 hk]
  simp [Nat.shiftLeft_eq]

theorem syncTag_clone_counts (align : Nat) (c : Counts) (w a : Word) :
    (SyncTag.TaggedArc.clone align c w).2 a = c a := by
  simp only [SyncTag.TaggedArc.clone, Arc.clone, Arc.drop]
  by_cases h : a = (SyncTag.decompose_tag SyncTag.alignOfArc w).1 <;> simp [h]

theorem pointer_clone_counts (align : Nat) (c : Counts) (w a : Word) :
    (Pointer.TaggedArc.clone align c w).2 a = c a := by
  simp only [Pointer.TaggedArc.clone, Arc.clone, Arc.drop]
  by_cases h : a = (Pointer.decompose_tag align w).1 <;> simp [h]

theorem pointer_clone_word (align : Nat) (c : Counts) (w : Word)
    (hw : w < 2 ^ 64) : (Pointer.TaggedArc.clone align c w).1 = w := by
  simp only [Pointer.TaggedArc.clone, Pointer.compose_tag, Pointer.decompose_tag]
  exact and_rustNot_or_and_self w _ hw

/-! ## Claim theorems -/

/-- C8: for every tag `t` and pointer word `p` whose low mask bits are zero,
`decompose_tag::<T>(compose_tag::<T>(p, t)) = (p, t mod (mask + 1))` for the
`src/sync/tag.rs` codec with a power-of-two alignment `2 ^ k`; bits of `t`
beyond the mask are silently discarded. -/
theorem decompose_compose_round_trip (k : Nat) (p t : Word)
    (hk : k ≤ 64) (hp : p < 2 ^ 64)
    (ha : p &&& SyncTag.low_bits (2 ^ k) = 0) :
    SyncTag.decompose_tag (2 ^ k) (SyncTag.compose_tag (2 ^ k) p t)
      = (p, t % (SyncTag.low_bits (2 ^ k) + 1)) := by
  have hm := low_bits_two_pow k hk
  rw [hm] at ha
  rw [hm]
  have hm1 : 2 ^ k - 1 + 1 = 2 ^ k := Nat.sub_add_cancel Nat.one_le_two_pow
  rw [hm1]
  have hpl : ∀ i, i < k → p.testBit i = false := by
    intro i hik
    have h0 := congrArg (fun x => Nat.testBit x i) ha
    simpa [Nat.testBit_and, Nat.testBit_two_pow_sub_one, hik] using h0
  unfold SyncTag.decompose_tag SyncTag.compose_tag
  rw [hm]
  simp only [Prod.mk.injEq]
  constructor
  · apply Nat.eq_of_testBit_eq
    intro i
    simp only [Nat.testBit_and, Nat.testBit_or, rustNot_testBit,
      Nat.testBit_two_pow_sub_one]
    by_cases hik : i < k
    · have hi64 : i < 64 := lt_of_lt_of_le hik hk
      simp [hik, hi64, hpl i hik]
    · by_cases hi64 : i < 64
      · simp [hik, hi64]
      · simp [hik, hi64, testBit_high_false hp (le_of_not_lt hi64)]
  · apply Nat.eq_of_testBit_eq
    intro i
    simp only [Nat.testBit_and, Nat.testBit_or, rustNot_testBit,
      Nat.testBit_two_pow_sub_one, Nat.testBit_mod_two_pow]
    by_cases hik : i < k
    · simp [hik, hpl i hik, lt_of_lt_of_le hik hk]
    · simp [hik]

/-- Witness for the C8 round-trip theorem at alignment 8 (`k = 3`),
`p = 16`, `t = 11`. -/
theorem decompose_compose_round_trip_witness :
    (3 : Nat) ≤ 64 ∧ (16 : Word) < 2 ^ 64
      ∧ (16 : Word) &&& SyncTag.low_bits (2 ^ 3) = 0
      ∧ SyncTag.decompose_tag (2 ^ 3) (SyncTag.compose_tag (2 ^ 3) 16 11)
          = (16, 11 % (SyncTag.low_bits (2 ^ 3) + 1)) :=
  ⟨by decide, by decide, by decide,
    decompose_compose_round_trip 3 16 11 (by decide) (by decide) (by decide)⟩

/-- C7: the `src/sync/tag.rs` mask is `alignment - 1` (7 for alignment 8, 0
for alignment 1), but the `src/pointer.rs` and `src/atomic.rs` copies of
`low_bits` compute `2 ^ alignment - 1` instead: for alignment 8 they return
255 where the claim (and the shared doc comment) requires 7. -/
theorem low_bits_mask_values :
    SyncTag.low_bits 8 = 7 ∧ SyncTag.low_bits 4 = 3 ∧ SyncTag.low_bits 1 = 0
      ∧ Pointer.low_bits 8 = 255 ∧ AtomicMod.low_bits 8 = 255
      ∧ (255 : Word) ≠ 8 - 1 := by
  refine ⟨by decide, by decide, by decide, by decide, by decide, by decide⟩

/-- C1: `store` installs the new handle's word, but the old handle is never
reconstructed or dropped, so the previously stored allocation's strong count
stays 1 instead of dropping to 0: slot word 41 (allocation 40, count 1),
storing word 57 leaves count(40) = 1 in all three implementations. -/
theorem store_overwrites_word_but_leaks_old :
    (Pointer.AtomicArc.store ⟨41, fun _ => 1⟩ 57).slot = 57
      ∧ (Pointer.AtomicArc.store ⟨41, fun _ => 1⟩ 57).counts 40 = 1
      ∧ (SyncPointer.AtomicArc.store ⟨41, fun _ => 1⟩ 57).slot = 57
      ∧ (SyncPointer.AtomicArc.store ⟨41, fun _ => 1⟩ 57).counts 40 = 1
      ∧ (AtomicMod.AtomicArc.store ⟨41, fun _ => 1⟩ 57).slot = 57
      ∧ (AtomicMod.AtomicArc.store ⟨41, fun _ => 1⟩ 57).counts 40 = 1 :=
  ⟨rfl, rfl, rfl, rfl, rfl, rfl⟩

/-- C2: `load` returns a handle with the slot's word and leaves the slot
word unchanged, but the strong count is net unchanged instead of
incremented: the `Clone` impl increments and then drops the `Arc` it
reconstructed from the borrowed word (and the `src/atomic.rs` load performs
no clone at all).  At slot word 41 (allocation 40, count 1) the count after
`load` is still 1, where the claim requires 2. -/
theorem load_returns_word_but_count_net_unchanged :
    (SyncPointer.AtomicArc.load 8 ⟨41, fun _ => 1⟩).map
        (fun r => (r.1, r.2.slot, r.2.counts 40)) = some (41, 41, 1)
      ∧ (Pointer.AtomicArc.load 3 ⟨41, fun _ => 1⟩).1 = 41
      ∧ (Pointer.AtomicArc.load 3 ⟨41, fun _ => 1⟩).2.slot = 41
      ∧ (Pointer.AtomicArc.load 3 ⟨41, fun _ => 1⟩).2.counts 40 = 1
      ∧ (AtomicMod.AtomicArc.load ⟨41, fun _ => 1⟩).1 = 41
      ∧ (AtomicMod.AtomicArc.load ⟨41, fun _ => 1⟩).2.counts 40 = 1 :=
  ⟨by decide, by decide, by decide, by decide, by decide, by decide⟩

/-- C3: dropping a `TaggedArc` never decrements any strong count (the `Drop`
impl is commented out), so for every count map the drop is the identity; in
particular a sole handle for allocation 40 (count 1) leaves count 1 behind
where the claim requires 0 and deallocation. -/
theorem tagged_arc_drop_leaves_counts_unchanged :
    (∀ (c : Counts) (w a : Word), SyncTag.TaggedArc.drop c w a = c a)
      ∧ SyncTag.TaggedArc.drop (fun _ => 1) 41 40 = 1 :=
  ⟨fun _ _ _ => rfl, rfl⟩

/-- C4: `clone` returns a handle with the original's word (for the aligned
case) but the strong count is net unchanged — the increment performed by
`Arc::clone` is cancelled when the `Arc` conjured from the borrowed word is
dropped at scope end — where the claim requires an increment by one. -/
theorem clone_same_word_but_count_net_unchanged :
    (∀ (align : Nat) (c : Counts) (w a : Word),
        (SyncTag.TaggedArc.clone align c w).2 a = c a)
      ∧ (∀ (align : Nat) (c : Counts) (w a : Word),
        (Pointer.TaggedArc.clone align c w).2 a = c a)
      ∧ (SyncTag.TaggedArc.clone 8 (fun _ => 1) 41).1 = 41
      ∧ (SyncTag.TaggedArc.clone 8 (fun _ => 1) 41).2 40 = 1 :=
  ⟨fun align c w a => syncTag_clone_counts align c w a,
    fun align c w a => pointer_clone_counts align c w a,
    by decide, by decide⟩

/-- C5: `compare_exchange` succeeds exactly when the slot word is bitwise
equal to `current`'s word (pointer bits and tag together, so the same
allocation under a different tag mismatches); on success the slot word
becomes `new`'s word and the returned `Ok` handle carries the prior word,
which equals `current`'s word. -/
theorem compare_exchange_succeeds_iff_words_equal (s : SlotState)
    (cur nw : Word) :
    (exceptIsOk (Pointer.AtomicArc.compare_exchange s cur nw).1 = true
        ↔ s.slot = cur)
      ∧ (s.slot = cur →
          Pointer.AtomicArc.compare_exchange s cur nw
            = (Except.ok cur, ⟨nw, s.counts⟩))
      ∧ (s.slot = cur → s.slot ≠ 0 →
          SyncPointer.AtomicArc.compare_exchange s cur nw
            = some (Except.ok cur, ⟨nw, s.counts⟩)) := by
  refine ⟨?_, ?_, ?_⟩
  · by_cases h : s.slot = cur <;>
      simp [Pointer.AtomicArc.compare_exchange, h, exceptIsOk]
  · intro h
    simp [Pointer.AtomicArc.compare_exchange, h]
  · intro h hz
    subst h
    simp [SyncPointer.AtomicArc.compare_exchange, SyncTag.TaggedArc.from_usize, hz]

/-- Witness for the C5 theorem: slot word 5 (count map constantly 1),
`current` word 5, `new` word 9. -/
theorem compare_exchange_succeeds_iff_words_equal_witness :
    (exceptIsOk (Pointer.AtomicArc.compare_exchange ⟨5, fun _ => 1⟩ 5 9).1 = true
        ↔ (5 : Word) = 5)
      ∧ ((5 : Word) = 5 →
          Pointer.AtomicArc.compare_exchange ⟨5, fun _ => 1⟩ 5 9
            = (Except.ok 5, ⟨9, fun _ => 1⟩))
      ∧ ((5 : Word) = 5 → (5 : Word) ≠ 0 →
          SyncPointer.AtomicArc.compare_exchange ⟨5, fun _ => 1⟩ 5 9
            = some (Except.ok 5, ⟨9, fun _ => 1⟩)) :=
  compare_exchange_succeeds_iff_words_equal ⟨5, fun _ => 1⟩ 5 9

/-- C6: when `compare_exchange` or `compare_exchange_weak` fails (mismatch,
or a spurious weak failure), no panic occurs (the result is `some`, the
`expect` on the nonzero slot word never fires), the slot state is completely
unchanged, and the `Err` handle is rebuilt from the slot's actual current
word. -/
theorem compare_exchange_failure_unchanged (s : SlotState) (cur nw : Word)
    (sp : Bool) :
    (s.slot ≠ cur →
        Pointer.AtomicArc.compare_exchange s cur nw = (Except.error s.slot, s))
      ∧ (s.slot ≠ 0 → s.slot ≠ cur →
        SyncPointer.AtomicArc.compare_exchange s cur nw
          = some (Except.error s.slot, s))
      ∧ (s.slot ≠ 0 → sp = true ∨ s.slot ≠ cur →
        SyncPointer.AtomicArc.compare_exchange_weak sp s cur nw
          = some (Except.error s.slot, s)) := by
  refine ⟨?_, ?_, ?_⟩
  · intro h
    simp [Pointer.AtomicArc.compare_exchange, h]
  · intro hz h
    simp [SyncPointer.AtomicArc.compare_exchange, SyncTag.TaggedArc.from_usize,
      h, hz]
  · intro hz h
    have hcond : ¬(sp = false ∧ s.slot = cur) := by
      rcases h with h1 | h2
      · intro hc
        rw [h1] at hc
        simp at hc
      · intro hc
        exact h2 hc.2
    simp [SyncPointer.AtomicArc.compare_exchange_weak, hcond,
      SyncTag.TaggedArc.from_usize, hz]

/-- Witness for the C6 theorem: slot word 5, `current` word 7 (mismatch),
`new` word 9, no spurious failure. -/
theorem compare_exchange_failure_unchanged_witness :
    ((5 : Word) ≠ 7 →
        Pointer.AtomicArc.compare_exchange ⟨5, fun _ => 1⟩ 7 9
          = (Except.error 5, ⟨5, fun _ => 1⟩))
      ∧ ((5 : Word) ≠ 0 → (5 : Word) ≠ 7 →
        SyncPointer.AtomicArc.compare_exchange ⟨5, fun _ => 1⟩ 7 9
          = some (Except.error 5, ⟨5, fun _ => 1⟩))
      ∧ ((5 : Word) ≠ 0 → false = true ∨ (5 : Word) ≠ 7 →
        SyncPointer.AtomicArc.compare_exchange_weak false ⟨5, fun _ => 1⟩ 7 9
          = some (Except.error 5, ⟨5, fun _ => 1⟩)) :=
  compare_exchange_failure_unchanged ⟨5, fun _ => 1⟩ 7 9 false

/-- C10: `TaggedArc::from_usize` (and `AtomicArc::from_usize`) in the sync
module return `None` exactly on the zero word and otherwise `Some` of a
handle carrying exactly the given (necessarily non-zero) word; the
`Option`-slot `load` returns `None` exactly when the slot word is zero and
performs no reference-count bookkeeping in that case. -/
theorem from_usize_none_iff_zero (w v a : Word) (align : Nat) (s : SlotState) :
    (SyncTag.TaggedArc.from_usize w = none ↔ w = 0)
      ∧ (SyncTag.TaggedArc.from_usize w = some v → v = w ∧ v ≠ 0)
      ∧ (SyncPointer.AtomicArc.from_usize w = none ↔ w = 0)
      ∧ ((SyncOption.load align s).1 = none ↔ s.slot = 0)
      ∧ (s.slot = 0 → (SyncOption.load align s).2 a = s.counts a) := by
  refine ⟨?_, ?_, ?_, ?_, ?_⟩
  · by_cases h : w = 0 <;> simp [SyncTag.TaggedArc.from_usize, h]
  · intro h
    by_cases hz : w = 0
    · simp [SyncTag.TaggedArc.from_usize, hz] at h
    · simp [SyncTag.TaggedArc.from_usize, hz] at h
      exact ⟨h.symm, fun hv => hz (h.trans hv)⟩
  · by_cases h : w = 0 <;> simp [SyncPointer.AtomicArc.from_usize, h]
  · by_cases h : s.slot = 0 <;>
      simp [SyncOption.load, SyncTag.TaggedArc.from_usize, h]
  · intro h
    simp [SyncOption.load, SyncTag.TaggedArc.from_usize, h]

/-- Witness for the C10 theorem: non-zero word 5 and an empty slot
(word 0). -/
theorem from_usize_none_iff_zero_witness :
    (SyncTag.TaggedArc.from_usize 5 = none ↔ (5 : Word) = 0)
      ∧ (SyncTag.TaggedArc.from_usize 5 = some 5 → (5 : Word) = 5 ∧ (5 : Word) ≠ 0)
      ∧ (SyncPointer.AtomicArc.from_usize 5 = none ↔ (5 : Word) = 0)
      ∧ ((SyncOption.load 8 ⟨0, fun _ => 1⟩).1 = none ↔ (0 : Word) = 0)
      ∧ ((0 : Word) = 0 → (SyncOption.load 8 ⟨0, fun _ => 1⟩).2 3 = 1) :=
  from_usize_none_iff_zero 5 5 3 8 ⟨0, fun _ => 1⟩

/-- Invariant of the `fetch_update` retry loop: when entered with `prev`
equal to the slot's word (which every retry re-establishes, since a failed
CAS reports the slot's actual value), an `Err v` exit means `f` declined on
`v`, `v` is the slot word, and the state is untouched; an `Ok v` exit means
`v` is the previous slot word and the slot now holds the word `f` produced,
with counts untouched. -/
theorem fetchUpdateLoop_invariant (align : Nat) (f : Word → Option Word) :
    ∀ (fuel : Nat) (spurs : List Bool) (s : SlotState) (v : Word)
      (s1 : SlotState),
      (Pointer.AtomicArc.fetchUpdateLoop align f fuel spurs s s.slot
          = some (Except.error v, s1) → f v = none ∧ v = s.slot ∧ s1 = s)
      ∧ (Pointer.AtomicArc.fetchUpdateLoop align f fuel spurs s s.slot
          = some (Except.ok v, s1) → v = s.slot ∧ f v = some s1.slot
            ∧ s1.counts = s.counts) := by
  intro fuel
  induction fuel with
  | zero =>
    intro spurs s v s1
    constructor <;> intro h <;> simp [Pointer.AtomicArc.fetchUpdateLoop] at h
  | succ n ih =>
    intro spurs s v s1
    constructor
    · intro h
      simp only [Pointer.AtomicArc.fetchUpdateLoop] at h
      cases hf : f s.slot with
      | none =>
        rw [hf] at h
        simp only [Option.some.injEq, Prod.mk.injEq, Except.error.injEq] at h
        obtain ⟨hv, hs⟩ := h
        subst hv
        subst hs
        exact ⟨hf, rfl, rfl⟩
      | some next =>
        rw [hf] at h
        simp only [] at h
        cases hsp : spurs.headD false with
        | false =>
          have hce : Pointer.AtomicArc.compare_exchange_weak (spurs.headD false)
              s s.slot next = (Except.ok s.slot, ⟨next, s.counts⟩) := by
            unfold Pointer.AtomicArc.compare_exchange_weak
            rw [hsp]
            simp
          rw [hce] at h
          simp at h
        | true =>
          have hce : Pointer.AtomicArc.compare_exchange_weak (spurs.headD false)
              s s.slot next = (Except.error s.slot, s) := by
            unfold Pointer.AtomicArc.compare_exchange_weak
            rw [hsp]
            simp
          rw [hce] at h
          simp only [] at h
          exact (ih spurs.tail s v s1).1 h
    · intro h
      simp only [Pointer.AtomicArc.fetchUpdateLoop] at h
      cases hf : f s.slot with
      | none =>
        rw [hf] at h
        simp at h
      | some next =>
        rw [hf] at h
        simp only [] at h
        cases hsp : spurs.headD false with
        | false =>
          have hce : Pointer.AtomicArc.compare_exchange_weak (spurs.headD false)
              s s.slot next = (Except.ok s.slot, ⟨next, s.counts⟩) := by
            unfold Pointer.AtomicArc.compare_exchange_weak
            rw [hsp]
            simp
          rw [hce] at h
          simp only [Option.some.injEq, Prod.mk.injEq, Except.ok.injEq] at h
          obtain ⟨hv, hs⟩ := h
          subst hv
          subst hs
          exact ⟨rfl, hf, rfl⟩
        | true =>
          have hce : Pointer.AtomicArc.compare_exchange_weak (spurs.headD false)
              s s.slot next = (Except.error s.slot, s) := by
            unfold Pointer.AtomicArc.compare_exchange_weak
            rw [hsp]
            simp
          rw [hce] at h
          simp only [] at h
          exact (ih spurs.tail s v s1).2 h

/-- C9: `fetch_update` loads the current value; whenever the result is
`Err v`, the update function declined on `v` (the value it was last given,
which is the slot's word), the slot word is unmodified and no count changed;
whenever the result is `Ok v`, `v` is the previous slot word and the slot
now holds exactly the word `f` produced for it, counts unchanged; a failed
`compare_exchange_weak` retries with the slot's latest actual value (the
recursive structure of `fetchUpdateLoop`, used by the invariant lemma). -/
theorem fetch_update_spec (align : Nat) (f : Word → Option Word) (fuel : Nat)
    (spurs : List Bool) (s : SlotState) (v a : Word) (s1 : SlotState)
    (hw : s.slot < 2 ^ 64) :
    (Pointer.AtomicArc.fetch_update align f fuel spurs s
        = some (Except.error v, s1) →
      f v = none ∧ v = s.slot ∧ s1.slot = s.slot ∧ s1.counts a = s.counts a)
      ∧ (Pointer.AtomicArc.fetch_update align f fuel spurs s
        = some (Except.ok v, s1) →
      v = s.slot ∧ f v = some s1.slot ∧ s1.counts a = s.counts a) := by
  have hload : (Pointer.AtomicArc.load align s).1
      = (Pointer.AtomicArc.load align s).2.slot := by
    show (Pointer.TaggedArc.clone align s.counts s.slot).1 = s.slot
    exact pointer_clone_word align s.counts s.slot hw
  have h2slot : (Pointer.AtomicArc.load align s).2.slot = s.slot := rfl
  have h2counts : (Pointer.AtomicArc.load align s).2.counts a = s.counts a :=
    pointer_clone_counts align s.counts s.slot a
  have hfu : Pointer.AtomicArc.fetch_update align f fuel spurs s
      = Pointer.AtomicArc.fetchUpdateLoop align f fuel spurs
          (Pointer.AtomicArc.load align s).2
          (Pointer.AtomicArc.load align s).2.slot := by
    unfold Pointer.AtomicArc.fetch_update
    rw [← hload]
  constructor
  · intro h
    rw [hfu] at h
    obtain ⟨hfv, hv, hs⟩ :=
      (fetchUpdateLoop_invariant align f fuel spurs
        (Pointer.AtomicArc.load align s).2 v s1).1 h
    refine ⟨hfv, hv.trans h2slot, ?_, ?_⟩
    · rw [hs]
      exact h2slot
    · rw [hs]
      exact h2counts
  · intro h
    rw [hfu] at h
    obtain ⟨hv, hfv, hc⟩ :=
      (fetchUpdateLoop_invariant align f fuel spurs
        (Pointer.AtomicArc.load align s).2 v s1).2 h
    exact ⟨hv.trans h2slot, hfv, (congrFun hc a).trans h2counts⟩

/-- Witness for the C9 theorem: slot word 41 (allocation 40), update
function replacing word 41 by word 57, one loop iteration, no spurious
failures; the run takes the successful-CAS branch. -/
theorem fetch_update_spec_witness :
    (41 : Word) < 2 ^ 64
      ∧ ((Pointer.AtomicArc.fetch_update 3
            (fun w => if w = 41 then some 57 else none) 1 [] ⟨41, fun _ => 1⟩
          = some (Except.error 41, ⟨57, Arc.drop (Arc.clone (fun _ => 1) 40) 40⟩) →
          (fun w => if w = 41 then some 57 else none) 41 = none
            ∧ (41 : Word) = 41 ∧ (57 : Word) = 41 ∧ (1 : Nat) = 1)
        ∧ (Pointer.AtomicArc.fetch_update 3
            (fun w => if w = 41 then some 57 else none) 1 [] ⟨41, fun _ => 1⟩
          = some (Except.ok 41, ⟨57, Arc.drop (Arc.clone (fun _ => 1) 40) 40⟩) →
          (41 : Word) = 41
            ∧ (fun w => if w = 41 then some 57 else none) 41 = some 57
            ∧ (1 : Nat) = 1)) :=
  ⟨by decide,
    fetch_update_spec 3 (fun w => if w = 41 then some 57 else none) 1 []
      ⟨41, fun _ => 1⟩ 41 40 ⟨57, Arc.drop (Arc.clone (fun _ => 1) 40) 40⟩
      (by decide)⟩
